import Mathlib

/-! Shallow embedding of the abDraw diagram-editor core: `shapes.py`,
`canvas_manager.py` and the save/load part of `file_manager.py`.

Modelling conventions:
* Python float coordinates are modelled as rationals, treated as exact
  arithmetic.
* `math.sqrt` distances are compared against the threshold by comparing
  squared distances (squaring is strictly monotone on nonnegative numbers,
  so every comparison made by the Python code is preserved).
* The tkinter canvas handles `canvas_id` and `label_canvas_id` are
  render-side bookkeeping (the spec declares rendering out of scope) and are
  not part of the structural model; `to_dict` drops `canvas_id` anyway.
* Python dicts produced by `to_dict` are modelled by the record `ShapeData`
  whose fields carry the same names; the `setdefault` calls of `from_dict`
  become `Option.getD`.
* All tkinter drawing calls (`draw_shape`, `redraw_shape`, canvas deletes,
  status-bar text) are no-ops on the structural state and are omitted.
-/

set_option maxRecDepth 10000

namespace AbDraw

/-- Connection record (`shapes.py`, class `Connection`): a line endpoint
pinned to the shape `target_id`; `endpoint` is the string `"start"` or
`"end"`. -/
structure Connection where
  target_id : Nat
  endpoint : String
deriving DecidableEq

/-- Shape record (`shapes.py`, class `Shape`), minus the two canvas
handles. Field names and defaults follow the dataclass. -/
structure Shape where
  x1 : ℚ
  y1 : ℚ
  x2 : ℚ
  y2 : ℚ
  color : String
  width : Int
  shape_type : String
  shape_id : Nat := 0
  fill_color : Option String := none
  connections : List Connection := []
  z_order : Int := 0
  text : Option String := none
  font_family : String := "Arial"
  font_size : Int := 12
  font_bold : Bool := false
  font_italic : Bool := false
  text_align : String := "left"
  label : Option String := none
  label_offset_x : ℚ := 0
  label_offset_y : ℚ := 0
  routing : String := "h_first"
  waypoints : List (ℚ × ℚ) := []
deriving DecidableEq

/-- The dictionary produced by `Shape.to_dict` (all dataclass fields except
`canvas_id`). `routing` and `waypoints` are optional because
`Shape.from_dict` accepts dicts missing them (`setdefault`). -/
structure ShapeData where
  x1 : ℚ
  y1 : ℚ
  x2 : ℚ
  y2 : ℚ
  color : String
  width : Int
  shape_type : String
  shape_id : Nat
  fill_color : Option String
  connections : List Connection
  z_order : Int
  text : Option String
  font_family : String
  font_size : Int
  font_bold : Bool
  font_italic : Bool
  text_align : String
  label : Option String
  label_offset_x : ℚ
  label_offset_y : ℚ
  routing : Option String
  waypoints : Option (List (ℚ × ℚ))
deriving DecidableEq

/-- `Shape.to_dict`: `asdict(self)` with `canvas_id` popped. -/
def Shape.to_dict (s : Shape) : ShapeData where
  x1 := s.x1
  y1 := s.y1
  x2 := s.x2
  y2 := s.y2
  color := s.color
  width := s.width
  shape_type := s.shape_type
  shape_id := s.shape_id
  fill_color := s.fill_color
  connections := s.connections
  z_order := s.z_order
  text := s.text
  font_family := s.font_family
  font_size := s.font_size
  font_bold := s.font_bold
  font_italic := s.font_italic
  text_align := s.text_align
  label := s.label
  label_offset_x := s.label_offset_x
  label_offset_y := s.label_offset_y
  routing := some s.routing
  waypoints := some s.waypoints

/-- `Shape.from_dict`: pops `canvas_id` (not modelled), defaults `routing`
to `"h_first"` and `waypoints` to `[]`, and rebuilds the dataclass. -/
def Shape.from_dict (d : ShapeData) : Shape where
  x1 := d.x1
  y1 := d.y1
  x2 := d.x2
  y2 := d.y2
  color := d.color
  width := d.width
  shape_type := d.shape_type
  shape_id := d.shape_id
  fill_color := d.fill_color
  connections := d.connections
  z_order := d.z_order
  text := d.text
  font_family := d.font_family
  font_size := d.font_size
  font_bold := d.font_bold
  font_italic := d.font_italic
  text_align := d.text_align
  label := d.label
  label_offset_x := d.label_offset_x
  label_offset_y := d.label_offset_y
  routing := d.routing.getD "h_first"
  waypoints := d.waypoints.getD []

/-- `Shape.get_bounds`. -/
def Shape.get_bounds (s : Shape) : ℚ × ℚ × ℚ × ℚ :=
  (min s.x1 s.x2, min s.y1 s.y2, max s.x1 s.x2, max s.y1 s.y2)

/-- `Shape.copy`: serialize, shift `x1 y1 x2 y2` and every waypoint by
`(20, 20)`, clear `connections`, deserialize. (Note: `shape_id` is carried
through unchanged.) -/
def Shape.copy (s : Shape) : Shape :=
  let data := s.to_dict
  let data :=
    { data with
        x1 := data.x1 + 20
        y1 := data.y1 + 20
        x2 := data.x2 + 20
        y2 := data.y2 + 20
        connections := []
        waypoints := data.waypoints.map
          (fun ws => ws.map (fun wp => (wp.1 + 20, wp.2 + 20))) }
  Shape.from_dict data

/-- `LINE_TYPES` from `canvas_manager.py`. -/
def LINE_TYPES : List String := ["line", "arrow", "ortho_line", "ortho_arrow"]

/-- `CanvasManager.snap_distance` (set to 15 in `__init__`). -/
def snap_distance : ℚ := 15

/-- One step of the `ortho_path` loop: the points appended for input point
`curr` when the last output point is `prev`. A bend is inserted when the
segment is not axis-aligned (`dx > 0.5 and dy > 0.5`); `"v_first"` bends
vertically first, anything else horizontally first. -/
def ortho_step (routing : String) (prev curr : ℚ × ℚ) : List (ℚ × ℚ) :=
  let dx := |curr.1 - prev.1|
  let dy := |curr.2 - prev.2|
  if dx > 1/2 ∧ dy > 1/2 then
    if routing = "v_first" then [(prev.1, curr.2), curr]
    else [(curr.1, prev.2), curr]
  else [curr]

/-- The `for i in range(1, len(points))` loop of `ortho_path`: `prev` is
always the most recently appended point, which is the previous input
point (`curr` is appended on every iteration). -/
def ortho_go (routing : String) (prev : ℚ × ℚ) : List (ℚ × ℚ) → List (ℚ × ℚ)
  | [] => []
  | curr :: rest => ortho_step routing prev curr ++ ortho_go routing curr rest

/-- `CanvasManager.ortho_path`: fewer than 2 points are returned unchanged,
otherwise the output is seeded with the first point and grown by the loop. -/
def ortho_path (points : List (ℚ × ℚ)) (routing : String) : List (ℚ × ℚ) :=
  match points with
  | [] => []
  | [p] => [p]
  | p0 :: rest => p0 :: ortho_go routing p0 rest

/-- The fixed anchor-point list of a shape, from the body of
`get_snap_point`: 8 points for rectangle/square, 4 cardinal points for
circle/ellipse, 3 corners for triangle, nothing for any other type. -/
def snap_points (shape : Shape) : List (ℚ × ℚ) :=
  if shape.shape_type = "rectangle" ∨ shape.shape_type = "square" then
    [(shape.x1, shape.y1), (shape.x2, shape.y1),
     (shape.x1, shape.y2), (shape.x2, shape.y2),
     ((shape.x1 + shape.x2) / 2, shape.y1),
     ((shape.x1 + shape.x2) / 2, shape.y2),
     (shape.x1, (shape.y1 + shape.y2) / 2),
     (shape.x2, (shape.y1 + shape.y2) / 2)]
  else if shape.shape_type = "circle" ∨ shape.shape_type = "ellipse" then
    let cx := (shape.x1 + shape.x2) / 2
    let cy := (shape.y1 + shape.y2) / 2
    let rx := |shape.x2 - shape.x1| / 2
    let ry := |shape.y2 - shape.y1| / 2
    [(cx - rx, cy), (cx + rx, cy), (cx, cy - ry), (cx, cy + ry)]
  else if shape.shape_type = "triangle" then
    let cx := (shape.x1 + shape.x2) / 2
    [(cx, shape.y1), (shape.x1, shape.y2), (shape.x2, shape.y2)]
  else []

/-- Squared Euclidean distance; the model's stand-in for
`math.sqrt((x-px)**2 + (y-py)**2)` (all comparisons are between squares). -/
def dist2 (x y px py : ℚ) : ℚ := (x - px) * (x - px) + (y - py) * (y - py)

/-- The `continue` condition of the `get_snap_point` loop: the scanned shape
is the excluded shape or a line-family shape. -/
def snap_skip (exclude_shape : Option Shape) (shape : Shape) : Prop :=
  some shape = exclude_shape ∨ shape.shape_type ∈ LINE_TYPES

instance (ex : Option Shape) (s : Shape) : Decidable (snap_skip ex s) := by
  unfold snap_skip; infer_instance

/-- Accumulator of the `get_snap_point` scan: `min_dist2` is the square of
Python's `min_dist`. -/
structure SnapAcc where
  min_dist2 : ℚ
  snap_x : ℚ
  snap_y : ℚ
  snap_shape : Option Shape
deriving DecidableEq

/-- The inner `for px, py in snap_points` update: strict improvement of the
running minimum (ties keep the earlier anchor). -/
def snap_step (x y : ℚ) (shape : Shape) (acc : SnapAcc) (p : ℚ × ℚ) : SnapAcc :=
  if dist2 x y p.1 p.2 < acc.min_dist2 then
    ⟨dist2 x y p.1 p.2, p.1, p.2, some shape⟩
  else acc

/-- `CanvasManager.get_snap_point(x, y, exclude_shape)` over the given shape
list: skips `exclude_shape` and all line-family shapes, scans every anchor of
every other shape, and returns `(snap_x, snap_y, snap_shape)`. -/
def get_snap_point (shapes : List Shape) (x y : ℚ) (exclude_shape : Option Shape) :
    ℚ × ℚ × Option Shape :=
  let r := shapes.foldl
    (fun acc shape =>
      if snap_skip exclude_shape shape then acc
      else (snap_points shape).foldl (snap_step x y shape) acc)
    ⟨snap_distance * snap_distance, x, y, none⟩
  (r.snap_x, r.snap_y, r.snap_shape)

/-- `CanvasManager.get_connection_point(target_shape, line_shape, endpoint)`:
reads the line's current endpoint coordinate and calls `get_snap_point`
excluding only the line itself. The `target_shape` parameter is accepted
but never used by the body. -/
def get_connection_point (shapes : List Shape) (_target_shape line_shape : Shape)
    (endpoint : String) : ℚ × ℚ :=
  let x := if endpoint = "start" then line_shape.x1 else line_shape.x2
  let y := if endpoint = "start" then line_shape.y1 else line_shape.y2
  let r := get_snap_point shapes x y (some line_shape)
  (r.1, r.2.1)

/-- A history snapshot (the dict built in `record_state` / `undo` / `redo`):
the serialized shape list plus the id counter. -/
structure Snapshot where
  shapes : List ShapeData
  next_id : Nat
deriving DecidableEq

/-- The structural state of a `CanvasManager` (drag/temporary interaction
fields and the tkinter app handle are out of scope). -/
structure CMState where
  shapes : List Shape := []
  next_shape_id : Nat := 1
  selected_shape : Option Shape := none
  clipboard : Option Shape := none
  undo_stack : List Snapshot := []
  redo_stack : List Snapshot := []
deriving DecidableEq

/-- `max_undo` (set to 50 in `__init__`). -/
def max_undo : Nat := 50

/-- The snapshot dict `{'shapes': [s.to_dict() ...], 'next_id': ...}`. -/
def current_snapshot (st : CMState) : Snapshot :=
  ⟨st.shapes.map Shape.to_dict, st.next_shape_id⟩

/-- `CanvasManager.record_state`: append the current snapshot, evict the
oldest entry (`pop(0)`) past `max_undo`, clear the redo stack.
(`mark_modified` only touches the window title.) -/
def record_state (st : CMState) : CMState :=
  let undo1 := st.undo_stack ++ [current_snapshot st]
  let undo2 := if undo1.length > max_undo then undo1.drop 1 else undo1
  { st with undo_stack := undo2, redo_stack := [] }

/-- `CanvasManager.clear_selection` (canvas highlight deletions and app
editing flags are out of scope). -/
def clear_selection (st : CMState) : CMState :=
  { st with selected_shape := none }

/-- `CanvasManager.add_shape(shape, record_undo)`: assign the next id when
`shape_id == 0`, append (drawing is a no-op on the model), then optionally
record. -/
def add_shape (st : CMState) (shape : Shape) (record_undo : Bool) : CMState :=
  let assign := shape.shape_id = 0
  let sh := if assign then { shape with shape_id := st.next_shape_id } else shape
  let next := if assign then st.next_shape_id + 1 else st.next_shape_id
  let st1 := { st with shapes := st.shapes ++ [sh], next_shape_id := next }
  if record_undo then record_state st1 else st1

/-- `CanvasManager.clear_all(record_undo)`: record when non-empty, clear the
shape list, clear the selection, reset the id counter. -/
def clear_all (st : CMState) (record_undo : Bool) : CMState :=
  let st1 := if record_undo ∧ st.shapes ≠ [] then record_state st else st
  let st2 := clear_selection { st1 with shapes := [] }
  { st2 with next_shape_id := 1 }

/-- Drop every connection entry aimed at `target_id` (the list
comprehension in `delete_shape`). -/
def detach_connections (target_id : Nat) (s : Shape) : Shape :=
  { s with connections := s.connections.filter (fun c => c.target_id ≠ target_id) }

/-- `CanvasManager.delete_shape(shape)`: when the shape is present, record
the current state, detach every connection aimed at its id, remove it, and
clear the selection; otherwise do nothing. Python's `list.remove` removes
the passed object itself (identity), modelled as the first occurrence of the
value in the pre-detach list. -/
def delete_shape (st : CMState) (shape : Shape) : CMState :=
  if shape ∈ st.shapes then
    let st1 := record_state st
    let i := st.shapes.findIdx (fun s => s = shape)
    let detached := st1.shapes.map (detach_connections shape.shape_id)
    clear_selection { st1 with shapes := detached.eraseIdx i }
  else st

/-- `CanvasManager.flip_routing`, addressing the mutated shape by its
position in the list (Python mutates the passed object in place): toggle
`routing` on an ortho shape, then record the (already mutated) state. -/
def flip_routing (st : CMState) (i : Nat) : CMState :=
  match st.shapes.get? i with
  | none => st
  | some shape =>
    if shape.shape_type = "ortho_line" ∨ shape.shape_type = "ortho_arrow" then
      let sh1 := { shape with
        routing := if shape.routing ≠ "v_first" then "v_first" else "h_first" }
      record_state { st with shapes := st.shapes.set i sh1 }
    else st

/-- `CanvasManager.copy_shape`: put a `copy()` of the selected shape on the
clipboard. -/
def copy_shape (st : CMState) : CMState :=
  match st.selected_shape with
  | some s => { st with clipboard := some s.copy }
  | none => st

/-- `CanvasManager.paste_shape`: `copy()` the clipboard, force
`shape_id = 0`, insert with recording. -/
def paste_shape (st : CMState) : CMState :=
  match st.clipboard with
  | some clip => add_shape st { clip.copy with shape_id := 0 } true
  | none => st

/-- Body of one connection update inside `rebuild_connections`, for the
line shape currently stored at index `i`: look up the target by id in the
live list; when found, overwrite the endpoint named by the connection with
`get_connection_point` (which ignores the target and re-snaps the current
endpoint coordinate against all shapes). -/
def rebuild_conn_step (i : Nat) (st : CMState) (conn : Connection) : CMState :=
  match st.shapes.get? i with
  | none => st
  | some sh =>
    match st.shapes.find? (fun s => s.shape_id = conn.target_id) with
    | none => st
    | some target =>
      let p := get_connection_point st.shapes target sh conn.endpoint
      let sh1 := if conn.endpoint = "start" then { sh with x1 := p.1, y1 := p.2 }
                 else { sh with x2 := p.1, y2 := p.2 }
      { st with shapes := st.shapes.set i sh1 }

/-- Processing of the `i`-th shape by `rebuild_connections`: only
line-family shapes are touched, and their stored connection list (fixed at
loop entry; `rebuild_connections` never mutates connection lists) is
replayed in order. -/
def rebuild_shape_step (st : CMState) (i : Nat) : CMState :=
  match st.shapes.get? i with
  | none => st
  | some shape =>
    if shape.shape_type ∈ LINE_TYPES then
      shape.connections.foldl (rebuild_conn_step i) st
    else st

/-- `CanvasManager.rebuild_connections`: re-derive every connected endpoint,
iterating over the shape list in order while mutating it in place. -/
def rebuild_connections (st : CMState) : CMState :=
  (List.range st.shapes.length).foldl rebuild_shape_step st

/-- `CanvasManager.restore_state(state)`: clear everything without
recording, restore the id counter, re-add every snapshot shape without
recording, then re-derive connections. -/
def restore_state (st : CMState) (state : Snapshot) : CMState :=
  let st1 := clear_all st false
  let st2 := { st1 with next_shape_id := state.next_id }
  let st3 := state.shapes.foldl (fun acc sd => add_shape acc (Shape.from_dict sd) false) st2
  rebuild_connections st3

/-- `CanvasManager.undo`: no-op on an empty undo stack; otherwise push the
current snapshot onto the redo stack and restore the popped snapshot. -/
def undo (st : CMState) : CMState :=
  match st.undo_stack.getLast? with
  | none => st
  | some snap =>
    restore_state
      { st with
          undo_stack := st.undo_stack.dropLast
          redo_stack := st.redo_stack ++ [current_snapshot st] } snap

/-- `CanvasManager.redo`: symmetric to `undo`. -/
def redo (st : CMState) : CMState :=
  match st.redo_stack.getLast? with
  | none => st
  | some snap =>
    restore_state
      { st with
          redo_stack := st.redo_stack.dropLast
          undo_stack := st.undo_stack ++ [current_snapshot st] } snap

/-- One connection update of `update_connected_lines` for the line at index
`i`: endpoints whose connection targets the moved shape's id are re-snapped
via `get_connection_point`. -/
def update_conn_step (moved_id : Nat) (i : Nat) (st : CMState) (conn : Connection) :
    CMState :=
  match st.shapes.get? i with
  | none => st
  | some sh =>
    if conn.target_id = moved_id then
      match st.shapes.find? (fun s => s.shape_id = moved_id) with
      | none => st
      | some moved =>
        let p := get_connection_point st.shapes moved sh conn.endpoint
        let sh1 := if conn.endpoint = "start" then { sh with x1 := p.1, y1 := p.2 }
                   else { sh with x2 := p.1, y2 := p.2 }
        { st with shapes := st.shapes.set i sh1 }
    else st

/-- `CanvasManager.update_connected_lines(moved_shape)` (by the moved
shape's id): every line-family shape with a connection to the moved shape
gets the affected endpoint re-snapped. -/
def update_connected_lines (st : CMState) (moved_id : Nat) : CMState :=
  (List.range st.shapes.length).foldl
    (fun acc i =>
      match acc.shapes.get? i with
      | none => acc
      | some shape =>
        if shape.shape_type ∈ LINE_TYPES then
          shape.connections.foldl (update_conn_step moved_id i) acc
        else acc) st

/-- The JSON document written by `FileManager.save_to_file`: a version tag
plus the serialized shapes. There is no `next_id` entry. -/
structure SaveData where
  version : String
  shapes : List ShapeData
deriving DecidableEq

/-- `FileManager.save_to_file` (file-system side effects out of scope). -/
def save_to_file (st : CMState) : SaveData :=
  { version := "1.0", shapes := st.shapes.map Shape.to_dict }

/-- The loading core of `FileManager.open_drawing`: `clear_all()` (with
default recording), re-add every stored shape without recording, then
`rebuild_connections`. The id counter is never read from the file. -/
def open_drawing (st : CMState) (data : SaveData) : CMState :=
  let st1 := clear_all st true
  let st2 := data.shapes.foldl (fun acc sd => add_shape acc (Shape.from_dict sd) false) st1
  rebuild_connections st2

/-! Derived notions used to state the claims. -/

/-- Axis-alignment with the half-unit tolerance of `ortho_path`. -/
def Aligned (p q : ℚ × ℚ) : Prop :=
  |q.1 - p.1| ≤ 1/2 ∨ |q.2 - p.2| ≤ 1/2

/-- The anchors scanned by `get_snap_point`, in scan order, each paired
with its owning shape. -/
def snap_candidates (shapes : List Shape) (exclude_shape : Option Shape) :
    List (Shape × (ℚ × ℚ)) :=
  (shapes.filter (fun s => ¬ snap_skip exclude_shape s)).flatMap
    (fun s => (snap_points s).map (fun p => (s, p)))

/-- `n` consecutive `record_state` calls. -/
def record_stateN : Nat → CMState → CMState
  | 0, st => st
  | n + 1, st => record_stateN n (record_state st)

/-- Everything of a `CMState` except shape geometry: the shape-id sequence,
the id counter, both history stacks, the selection and the clipboard.
`rebuild_connections` only moves connector endpoints, so it fixes this. -/
def skeleton (st : CMState) :
    List Nat × Nat × List Snapshot × List Snapshot × Option Shape × Option Shape :=
  (st.shapes.map Shape.shape_id, st.next_shape_id, st.undo_stack, st.redo_stack,
   st.selected_shape, st.clipboard)

/-- The interactive editing operations of claim C10. -/
inductive EditOp where
  | insert (sh : Shape)
  | paste
  | delete (sh : Shape)
  | undo
  | redo
deriving DecidableEq

/-- Effect of one editing operation. Interactive insertion
(`drawing_app.py`) always constructs its `Shape` with the default
`shape_id = 0`, which `insert` makes explicit. -/
def apply_op (st : CMState) : EditOp → CMState
  | .insert sh => add_shape st { sh with shape_id := 0 } true
  | .paste => paste_shape st
  | .delete sh => delete_shape st sh
  | .undo => undo st
  | .redo => redo st

/-- Run an operation sequence from the empty drawing. The clipboard is
seeded arbitrarily (its content can only come from `copy_shape`, but any
seed makes the invariant strictly stronger and lets `paste` fire). -/
def run_ops (clip : Option Shape) (ops : List EditOp) : CMState :=
  ops.foldl apply_op { clipboard := clip }

/-- Well-formedness of a live shape list against the id counter: pairwise
distinct positive ids, all below the counter (which is at least 1). -/
def ids_ok (shapes : List Shape) (next : Nat) : Prop :=
  1 ≤ next ∧ (shapes.map Shape.shape_id).Nodup ∧
    ∀ s ∈ shapes, 0 < s.shape_id ∧ s.shape_id < next

/-- The same well-formedness for a history snapshot. -/
def snapshot_ok (sn : Snapshot) : Prop :=
  1 ≤ sn.next_id ∧ (sn.shapes.map ShapeData.shape_id).Nodup ∧
    ∀ sd ∈ sn.shapes, 0 < sd.shape_id ∧ sd.shape_id < sn.next_id

/-- The inductive invariant: the live state and every stacked snapshot are
well formed. -/
def state_ok (st : CMState) : Prop :=
  ids_ok st.shapes st.next_shape_id ∧
    (∀ sn ∈ st.undo_stack, snapshot_ok sn) ∧
    ∀ sn ∈ st.redo_stack, snapshot_ok sn

/-! Concrete fixtures for counterexamples and witnesses. -/

/-- A far-away rectangle serving as a connection target. -/
def rect_far : Shape :=
  { x1 := 500, y1 := 500, x2 := 600, y2 := 600,
    color := "black", width := 2, shape_type := "rectangle", shape_id := 1 }

/-- A rectangle that is NOT the connection target but has its top-left
corner 5 units from the connector's end point. -/
def rect_near : Shape :=
  { x1 := 105, y1 := 100, x2 := 205, y2 := 200,
    color := "black", width := 2, shape_type := "rectangle", shape_id := 2 }

/-- A line whose `"end"` endpoint sits at `(100, 100)` and is connected to
`rect_far` (id 1). -/
def line_conn : Shape :=
  { x1 := 300, y1 := 300, x2 := 100, y2 := 100,
    color := "black", width := 2, shape_type := "line", shape_id := 3,
    connections := [⟨1, "end"⟩] }

/-- A shape with nonzero id, a connection and a waypoint, for the clone
claim. -/
def sh_clone : Shape :=
  { x1 := 1, y1 := 2, x2 := 3, y2 := 4, color := "red",
    width := 1, shape_type := "ortho_line", shape_id := 5,
    connections := [⟨9, "start"⟩], waypoints := [(10, 11)] }

/-- A plain rectangle with id 1. -/
def rect_one : Shape :=
  { x1 := 0, y1 := 0, x2 := 50, y2 := 50, color := "k",
    width := 1, shape_type := "rectangle", shape_id := 1 }

/-- A drawing holding `rect_one` with the counter already at 2. -/
def st_saved : CMState := { shapes := [rect_one], next_shape_id := 2 }

/-- A rectangle whose top-left corner `(0,0)` is within snap range of the
connected line's endpoint. -/
def rect_snap : Shape :=
  { x1 := 0, y1 := 0, x2 := 100, y2 := 100, color := "k",
    width := 1, shape_type := "rectangle", shape_id := 1 }

/-- A line connected to `rect_snap` whose `"end"` endpoint `(5, 5)` is near
but not on the corner anchor. -/
def line_snap : Shape :=
  { x1 := 50, y1 := 200, x2 := 5, y2 := 5, color := "k",
    width := 1, shape_type := "line", shape_id := 2, connections := [⟨1, "end"⟩] }

/-- The drawing holding `rect_snap` and `line_snap`. -/
def st_snap : CMState := { shapes := [rect_snap, line_snap], next_shape_id := 3 }

/-- `st_snap` after `record_state` followed by a mutation of the id
counter. -/
def st_snap_mut : CMState := { record_state st_snap with next_shape_id := 99 }

/-- A rectangle for the threshold-boundary instances: its top-left corner is
the origin. -/
def rect_thr : Shape :=
  { x1 := 0, y1 := 0, x2 := 100, y2 := 50, color := "k",
    width := 1, shape_type := "rectangle", shape_id := 1 }

/-- A drawing with one rectangle (no connections), used by round-trip
witnesses. -/
def st_plain : CMState := { shapes := [rect_one], next_shape_id := 2 }

/-- A drawing holding one ortho line (`sh_clone`), for the routing-flip
witness. -/
def st_flip : CMState := { shapes := [sh_clone], next_shape_id := 6 }

/-! Serialization round trip (helper). -/

/-- Serializing a shape and deserializing it restores every modelled field. -/
theorem from_dict_to_dict (s : Shape) : Shape.from_dict s.to_dict = s := rfl

/-! Claim C2. -/

/-- Claim C2 (counterexample): `Shape.copy` does not reset the id to the
unassigned sentinel 0 — on a shape with id 5 the clone keeps id 5. -/
theorem c2_counterexample : sh_clone.copy.shape_id = 5 ∧ ¬ sh_clone.copy.shape_id = 0 := by
  constructor
  · rfl
  · intro h; exact absurd h (by decide)

/-- Claim C2 (amended): `Shape.copy` returns the shape with `x1 y1 x2 y2`
and every waypoint shifted by `(20, 20)` and with `connections` cleared,
all other fields — including `shape_id` — carried over unchanged (the
unassigned sentinel is set by `paste_shape`, not by `copy`); the original
shape is unaffected (the operation is a pure data transform). -/
theorem c2_clone_offset (s : Shape) :
    s.copy = { s with
      x1 := s.x1 + 20, y1 := s.y1 + 20, x2 := s.x2 + 20, y2 := s.y2 + 20,
      connections := [],
      waypoints := s.waypoints.map (fun wp => (wp.1 + 20, wp.2 + 20)) } := rfl

/-! Claim C3. -/

/-- Claim C3 (code bug): the serialized representation has no `nextId`
entry, so the id counter is not restored. Saving a drawing whose counter is
2 (or 99) and loading it back yields a counter of 1; the shapes themselves
round-trip intact, but a subsequent insert re-assigns id 1 and collides
with the loaded shape's id. -/
theorem c3_save_load_drops_next_id :
    (open_drawing {} (save_to_file st_saved)).shapes = st_saved.shapes ∧
    (open_drawing {} (save_to_file st_saved)).next_shape_id = 1 ∧
    st_saved.next_shape_id = 2 ∧
    (open_drawing {} (save_to_file { st_saved with next_shape_id := 99 })).next_shape_id = 1 ∧
    ((add_shape (open_drawing {} (save_to_file st_saved))
        { rect_one with shape_id := 0 } true).shapes.map Shape.shape_id) = [1, 1] := by
  with_unfolding_all decide

/-! Claim C8. -/

/-- Every step of the `ortho_path` loop keeps the output chain
axis-aligned: the appended points link to the previous output point by a
horizontal or vertical (within tolerance) segment. -/
theorem ortho_go_chain (routing : String) (l : List (ℚ × ℚ)) :
    ∀ prev : ℚ × ℚ, List.Chain Aligned prev (ortho_go routing prev l) := by
  induction l with
  | nil => intro prev; exact List.Chain.nil
  | cons curr rest ih =>
    intro prev
    show List.Chain Aligned prev (ortho_step routing prev curr ++ ortho_go routing curr rest)
    unfold ortho_step
    by_cases h : |curr.1 - prev.1| > 1/2 ∧ |curr.2 - prev.2| > 1/2
    · rw [if_pos h]
      by_cases hr : routing = "v_first"
      · rw [if_pos hr]
        refine List.Chain.cons (Or.inl ?_) (List.Chain.cons (Or.inr ?_) (ih curr))
        · simp
        · simp
      · rw [if_neg hr]
        refine List.Chain.cons (Or.inr ?_) (List.Chain.cons (Or.inl ?_) (ih curr))
        · simp
        · simp
    · rw [if_neg h]
      rcases not_and_or.mp h with h1 | h1
      · exact List.Chain.cons (Or.inl (not_lt.mp h1)) (ih curr)
      · exact List.Chain.cons (Or.inr (not_lt.mp h1)) (ih curr)

/-- Length bounds for the `ortho_path` loop: each input point contributes
one or two output points. -/
theorem ortho_go_length (routing : String) (l : List (ℚ × ℚ)) :
    ∀ prev : ℚ × ℚ, l.length ≤ (ortho_go routing prev l).length ∧
      (ortho_go routing prev l).length ≤ 2 * l.length := by
  induction l with
  | nil => intro prev; simp [ortho_go]
  | cons curr rest ih =>
    intro prev
    have hstep : 1 ≤ (ortho_step routing prev curr).length ∧
        (ortho_step routing prev curr).length ≤ 2 := by
      unfold ortho_step
      by_cases h : |curr.1 - prev.1| > 1/2 ∧ |curr.2 - prev.2| > 1/2
      · rw [if_pos h]; by_cases hr : routing = "v_first" <;> simp [hr]
      · rw [if_neg h]; simp
    have hrest := ih curr
    have hgo : (ortho_go routing prev (curr :: rest)).length =
        (ortho_step routing prev curr).length + (ortho_go routing curr rest).length := by
      show (ortho_step routing prev curr ++ ortho_go routing curr rest).length = _
      rw [List.length_append]
    rw [hgo, List.length_cons]
    omega

/-- Claim C8: every consecutive pair of points in the output of
`ortho_path` is axis-aligned within the half-unit tolerance, the output is
at least as long as the input, and at most one bend is inserted per input
segment (output length at most `2·n − 1`). -/
theorem c8_router_alignment (points : List (ℚ × ℚ)) (routing : String) :
    List.Chain' Aligned (ortho_path points routing) ∧
    points.length ≤ (ortho_path points routing).length ∧
    (ortho_path points routing).length ≤ 2 * points.length - 1 := by
  match points with
  | [] => exact ⟨trivial, by simp [ortho_path], by simp [ortho_path]⟩
  | [p] =>
    refine ⟨List.Chain.nil, by simp [ortho_path], by simp [ortho_path]⟩
  | p0 :: p1 :: rest =>
    refine ⟨ortho_go_chain routing (p1 :: rest) p0, ?_, ?_⟩
    · have h := (ortho_go_length routing (p1 :: rest) p0).1
      show ((p0 :: p1 :: rest) : List (ℚ × ℚ)).length ≤
        ((p0 :: ortho_go routing p0 (p1 :: rest)) : List (ℚ × ℚ)).length
      simp only [List.length_cons] at h ⊢
      omega
    · have h := (ortho_go_length routing (p1 :: rest) p0).2
      show ((p0 :: ortho_go routing p0 (p1 :: rest)) : List (ℚ × ℚ)).length ≤
        2 * ((p0 :: p1 :: rest) : List (ℚ × ℚ)).length - 1
      simp only [List.length_cons] at h ⊢
      omega

/-! Helper lemmas about `record_state`. -/

/-- The undo stack after `record_state`, unfolded. -/
theorem record_state_undo_stack (st : CMState) :
    (record_state st).undo_stack =
      if (st.undo_stack ++ [current_snapshot st]).length > max_undo
      then (st.undo_stack ++ [current_snapshot st]).drop 1
      else st.undo_stack ++ [current_snapshot st] := rfl

/-- `record_state` leaves the drawing part of the state unchanged, so the
current snapshot is unchanged. -/
theorem current_snapshot_record (st : CMState) :
    current_snapshot (record_state st) = current_snapshot st := rfl

/-- The entry pushed by `record_state` is the snapshot taken at call time,
and it survives the possible eviction of the oldest entry. -/
theorem record_state_getLast (st : CMState) :
    (record_state st).undo_stack.getLast? = some (current_snapshot st) := by
  rw [record_state_undo_stack]
  split
  · next h =>
    have hlen : 1 ≤ st.undo_stack.length := by
      simp only [List.length_append, List.length_cons, List.length_nil, max_undo] at h
      omega
    rw [List.drop_append_of_le_length hlen]
    exact List.getLast?_concat _
  · exact List.getLast?_concat _

/-- `record_state` keeps the undo stack within the depth bound. -/
theorem record_state_length (st : CMState) (h : st.undo_stack.length ≤ max_undo) :
    (record_state st).undo_stack.length ≤ max_undo := by
  rw [record_state_undo_stack]
  split
  · next hgt =>
    rw [List.length_drop]
    simp only [List.length_append, List.length_cons, List.length_nil]
    omega
  · next hle =>
    simp only [List.length_append, List.length_cons, List.length_nil] at hle ⊢
    omega

/-- Closed form of the undo stack after `k` consecutive `record_state`
calls: the last `max_undo` entries of the old stack followed by `k` copies
of the (unchanging) snapshot. -/
theorem record_stateN_undo_stack (k : Nat) :
    ∀ st : CMState, st.undo_stack.length ≤ max_undo →
      (record_stateN k st).undo_stack =
        (st.undo_stack ++ List.replicate k (current_snapshot st)).drop
          (st.undo_stack.length + k - max_undo) := by
  induction k with
  | zero =>
    intro st h
    show st.undo_stack = _
    have hz : st.undo_stack.length + 0 - max_undo = 0 := by omega
    rw [hz]
    simp
  | succ k ih =>
    intro st h
    show (record_stateN k (record_state st)).undo_stack = _
    rw [ih (record_state st) (record_state_length st h), current_snapshot_record,
      record_state_undo_stack]
    have hrep : ∀ m : Nat, [current_snapshot st] ++ List.replicate m (current_snapshot st) =
        List.replicate (m + 1) (current_snapshot st) := by
      intro m
      rw [List.replicate_succ]
      rfl
    by_cases hov : st.undo_stack.length + 1 > max_undo
    · have hL : st.undo_stack.length = max_undo := by omega
      rw [if_pos (by
        simp only [List.length_append, List.length_cons, List.length_nil]
        omega)]
      rw [List.length_drop]
      have h2 : ((st.undo_stack ++ [current_snapshot st]) ++
            List.replicate k (current_snapshot st)).drop 1 =
          (st.undo_stack ++ [current_snapshot st]).drop 1 ++
            List.replicate k (current_snapshot st) :=
        List.drop_append_of_le_length (by simp)
      rw [← h2, List.drop_drop, List.append_assoc, hrep k]
      congr 1
      simp only [List.length_append, List.length_cons, List.length_nil]
      omega
    · rw [if_neg (by
        simp only [List.length_append, List.length_cons, List.length_nil]
        omega)]
      rw [List.append_assoc, hrep k]
      congr 1
      simp only [List.length_append, List.length_cons, List.length_nil]
      omega

/-! Claim C9. -/

/-- Claim C9: `record_state` keeps the undo stack within 50 entries,
always appends the call-time snapshot as the newest entry while clearing
the redo stack, and 60 consecutive `record_state` calls leave exactly the
50 most recent snapshots (the oldest entries evicted). -/
theorem c9_history_bound :
    (∀ st : CMState, st.undo_stack.length ≤ 50 →
      (record_state st).undo_stack.length ≤ 50) ∧
    (∀ st : CMState, (record_state st).undo_stack.getLast? = some (current_snapshot st) ∧
      (record_state st).redo_stack = []) ∧
    (∀ st : CMState, st.undo_stack.length ≤ 50 →
      (record_stateN 60 st).undo_stack = List.replicate 50 (current_snapshot st)) := by
  refine ⟨fun st h => record_state_length st h, fun st => ⟨record_state_getLast st, rfl⟩, ?_⟩
  intro st h
  rw [record_stateN_undo_stack 60 st h]
  have hidx : st.undo_stack.length + 60 - max_undo = st.undo_stack.length + 10 := by
    simp only [max_undo]
    omega
  rw [hidx, ← List.drop_drop]
  rw [List.drop_left]
  have : (10 : Nat) ≤ 60 := by omega
  rw [List.drop_replicate]

/-- Claim C9 (witness): instantiated at the empty state. -/
theorem c9_witness :
    (({} : CMState)).undo_stack.length ≤ 50 ∧
    (record_stateN 60 {}).undo_stack = List.replicate 50 (current_snapshot {}) :=
  ⟨by decide, c9_history_bound.2.2 {} (by decide)⟩

/-! Claim C4. -/

/-- Claim C4 (counterexample): inserting a shape into the empty drawing
pushes a snapshot that contains the inserted shape — the post-action state,
not the pre-action state claimed. -/
theorem c4_counterexample :
    (add_shape {} { rect_one with shape_id := 0 } true).undo_stack.getLast? ≠
      some (current_snapshot ({} : CMState)) := by
  with_unfolding_all decide

/-- Claim C4 (amended): only `delete_shape` snapshots the pre-action state;
`add_shape` and `flip_routing` mutate first and record afterwards, so the
snapshot they push equals the post-action state. -/
theorem c4_record_timing :
    (∀ (st : CMState) (sh : Shape), sh ∈ st.shapes →
      (delete_shape st sh).undo_stack.getLast? = some (current_snapshot st)) ∧
    (∀ (st : CMState) (sh : Shape),
      (add_shape st sh true).undo_stack.getLast? =
        some (current_snapshot (add_shape st sh true))) ∧
    (∀ (st : CMState) (i : Nat) (sh : Shape), st.shapes.get? i = some sh →
      (sh.shape_type = "ortho_line" ∨ sh.shape_type = "ortho_arrow") →
      (flip_routing st i).undo_stack.getLast? =
        some (current_snapshot (flip_routing st i))) := by
  refine ⟨?_, ?_, ?_⟩
  · intro st sh h
    unfold delete_shape
    rw [if_pos h]
    exact record_state_getLast st
  · intro st sh
    show (record_state _).undo_stack.getLast? = some (current_snapshot (record_state _))
    rw [current_snapshot_record]
    exact record_state_getLast _
  · intro st i sh hget hty
    simp only [flip_routing, hget]
    rw [if_pos hty]
    rw [current_snapshot_record]
    exact record_state_getLast _

/-- Claim C4 (witness): the three cases at concrete states. -/
theorem c4_witness :
    (delete_shape st_plain rect_one).undo_stack.getLast? = some (current_snapshot st_plain) ∧
    (add_shape st_plain rect_one true).undo_stack.getLast? =
      some (current_snapshot (add_shape st_plain rect_one true)) ∧
    (flip_routing st_flip 0).undo_stack.getLast? =
      some (current_snapshot (flip_routing st_flip 0)) :=
  ⟨c4_record_timing.1 st_plain rect_one (by decide),
   c4_record_timing.2.1 st_plain rect_one,
   c4_record_timing.2.2 st_flip 0 sh_clone (by decide) (by decide)⟩

/-! Claim C6. -/

/-- Decomposition of the `delete_shape` list update: removing the first
occurrence of `sh` from the detached list equals detaching the list with
that occurrence removed. -/
theorem delete_list_spec (sh : Shape) : ∀ l : List Shape, sh ∈ l →
    ∃ l1 l2, l = l1 ++ sh :: l2 ∧ sh ∉ l1 ∧
      (l.map (detach_connections sh.shape_id)).eraseIdx
          (l.findIdx (fun s => s = sh)) =
        (l1 ++ l2).map (detach_connections sh.shape_id) := by
  intro l hmem
  induction l with
  | nil => cases hmem
  | cons a t ih =>
    by_cases ha : a = sh
    · subst ha
      refine ⟨[], t, rfl, by simp, ?_⟩
      simp [List.findIdx_cons]
    · rcases List.mem_cons.mp hmem with h | h
      · exact absurd h.symm ha
      · obtain ⟨l1, l2, he, hnot, heq⟩ := ih h
        refine ⟨a :: l1, l2, by rw [he]; rfl, ?_, ?_⟩
        · intro hc
          rcases List.mem_cons.mp hc with h1 | h1
          · exact ha h1.symm
          · exact hnot h1
        · have hfi : (a :: t).findIdx (fun s => s = sh) =
              t.findIdx (fun s => s = sh) + 1 := by
            rw [List.findIdx_cons]
            simp [ha]
          rw [hfi, List.map_cons, List.eraseIdx_cons_succ, heq]
          rfl

/-- Claim C6: deleting a shape that is present removes exactly that shape
(one occurrence), detaches every remaining connection aimed at its id, and
deletes nothing else; deleting a shape that is absent is a strict no-op
(state, collection and history unchanged). -/
theorem c6_delete_detach (st : CMState) (sh : Shape) :
    (sh ∉ st.shapes → delete_shape st sh = st) ∧
    (sh ∈ st.shapes →
      (delete_shape st sh).shapes.length + 1 = st.shapes.length ∧
      (∀ s ∈ (delete_shape st sh).shapes, ∀ c ∈ s.connections,
        c.target_id ≠ sh.shape_id) ∧
      ∃ l1 l2, st.shapes = l1 ++ sh :: l2 ∧ sh ∉ l1 ∧
        (delete_shape st sh).shapes = (l1 ++ l2).map (detach_connections sh.shape_id)) := by
  constructor
  · intro h
    unfold delete_shape
    rw [if_neg h]
  · intro h
    have hshapes : (delete_shape st sh).shapes =
        (st.shapes.map (detach_connections sh.shape_id)).eraseIdx
          (st.shapes.findIdx (fun s => s = sh)) := by
      unfold delete_shape
      rw [if_pos h]
      rfl
    obtain ⟨l1, l2, he, hnot, heq⟩ := delete_list_spec sh st.shapes h
    refine ⟨?_, ?_, l1, l2, he, hnot, by rw [hshapes, heq]⟩
    · rw [hshapes, heq, he]
      simp only [List.length_map, List.length_append, List.length_cons]
      omega
    · intro s hs c hc
      rw [hshapes, heq] at hs
      obtain ⟨s0, _, rfl⟩ := List.mem_map.mp hs
      have hp := List.of_mem_filter hc
      exact of_decide_eq_true hp

/-- Claim C6 (witness): a present shape and an absent shape at a concrete
state. -/
theorem c6_witness :
    delete_shape st_plain sh_clone = st_plain ∧
    (delete_shape st_plain rect_one).shapes.length + 1 = st_plain.shapes.length :=
  ⟨(c6_delete_detach st_plain sh_clone).1 (by decide),
   ((c6_delete_detach st_plain rect_one).2 (by decide)).1⟩

/-! Restoration machinery (helpers for the undo/redo claims). -/

/-- Re-adding serialized shapes with nonzero ids appends them verbatim and
leaves the id counter alone. -/
theorem foldl_add_shape (sds : List ShapeData) : ∀ st : CMState,
    (∀ sd ∈ sds, sd.shape_id ≠ 0) →
    sds.foldl (fun acc sd => add_shape acc (Shape.from_dict sd) false) st =
      { st with shapes := st.shapes ++ sds.map Shape.from_dict } := by
  induction sds with
  | nil => intro st _; show st = _; rw [List.map_nil, List.append_nil]
  | cons sd rest ih =>
    intro st h
    have hid : ¬ (Shape.from_dict sd).shape_id = 0 := h sd (List.mem_cons_self sd rest)
    have hadd : add_shape st (Shape.from_dict sd) false =
        { st with shapes := st.shapes ++ [Shape.from_dict sd] } := by
      unfold add_shape
      simp only [if_neg hid]
      rfl
    show rest.foldl _ (add_shape st (Shape.from_dict sd) false) = _
    rw [hadd, ih { st with shapes := st.shapes ++ [Shape.from_dict sd] }
      (fun x hx => h x (List.mem_cons_of_mem _ hx))]
    simp [List.append_assoc]

/-- A shape with no connections is left untouched by the
`rebuild_connections` pass. -/
theorem rebuild_shape_step_noconn (st : CMState) (i : Nat)
    (h : ∀ s ∈ st.shapes, s.connections = []) : rebuild_shape_step st i = st := by
  unfold rebuild_shape_step
  cases hget : st.shapes.get? i with
  | none => rfl
  | some shape =>
    have hmem : shape ∈ st.shapes := List.get?_mem hget
    simp only [h shape hmem, List.foldl_nil]
    split <;> rfl

/-- `rebuild_connections` is the identity on drawings without
connections. -/
theorem rebuild_connections_noconn (st : CMState)
    (h : ∀ s ∈ st.shapes, s.connections = []) : rebuild_connections st = st := by
  show (List.range st.shapes.length).foldl rebuild_shape_step st = st
  generalize List.range st.shapes.length = l
  induction l with
  | nil => rfl
  | cons i rest ih =>
    show rest.foldl rebuild_shape_step (rebuild_shape_step st i) = st
    rw [rebuild_shape_step_noconn st i h]
    exact ih

/-- `restore_state` on a snapshot of connection-free shapes with assigned
ids replaces the shape list and id counter exactly (and clears the
selection); the history stacks and clipboard are untouched. -/
theorem restore_state_spec (st : CMState) (snap : Snapshot)
    (hid : ∀ sd ∈ snap.shapes, sd.shape_id ≠ 0)
    (hconn : ∀ sd ∈ snap.shapes, sd.connections = []) :
    restore_state st snap =
      { st with shapes := snap.shapes.map Shape.from_dict,
                next_shape_id := snap.next_id,
                selected_shape := none } := by
  have h2 : snap.shapes.foldl (fun acc sd => add_shape acc (Shape.from_dict sd) false)
        { st with shapes := [], next_shape_id := snap.next_id, selected_shape := none } =
      { st with shapes := snap.shapes.map Shape.from_dict,
                next_shape_id := snap.next_id, selected_shape := none } := by
    rw [foldl_add_shape snap.shapes _ hid]
    rfl
  have h3 : rebuild_connections
        { st with shapes := snap.shapes.map Shape.from_dict,
                  next_shape_id := snap.next_id, selected_shape := none } =
      { st with shapes := snap.shapes.map Shape.from_dict,
                next_shape_id := snap.next_id, selected_shape := none } := by
    refine rebuild_connections_noconn _ ?_
    intro s hs
    obtain ⟨sd, hsd, rfl⟩ := List.mem_map.mp hs
    exact hconn sd hsd
  calc restore_state st snap
      = rebuild_connections
          (snap.shapes.foldl (fun acc sd => add_shape acc (Shape.from_dict sd) false)
            { st with shapes := [], next_shape_id := snap.next_id,
                      selected_shape := none }) := rfl
    _ = { st with shapes := snap.shapes.map Shape.from_dict,
                  next_shape_id := snap.next_id, selected_shape := none } := by
        rw [h2, h3]

/-- `undo` on a nonempty undo stack restores the popped snapshot after
moving the current snapshot to the redo stack. -/
theorem undo_eq_restore (st : CMState) (snap : Snapshot)
    (h : st.undo_stack.getLast? = some snap) :
    undo st = restore_state
      { st with undo_stack := st.undo_stack.dropLast,
                redo_stack := st.redo_stack ++ [current_snapshot st] } snap := by
  unfold undo
  rw [h]

/-- `redo` on a nonempty redo stack, symmetrically. -/
theorem redo_eq_restore (st : CMState) (snap : Snapshot)
    (h : st.redo_stack.getLast? = some snap) :
    redo st = restore_state
      { st with redo_stack := st.redo_stack.dropLast,
                undo_stack := st.undo_stack ++ [current_snapshot st] } snap := by
  unfold redo
  rw [h]

/-- Deserializing the serialized shape list is the identity. -/
theorem map_from_dict_to_dict (l : List Shape) :
    (l.map Shape.to_dict).map Shape.from_dict = l := by
  rw [List.map_map]
  have hcomp : Shape.from_dict ∘ Shape.to_dict = id := funext from_dict_to_dict
  rw [hcomp, List.map_id]

/-- `undo` after `record_state` followed by an arbitrary mutation of the
shape sequence and id counter, fully characterized, for drawings whose
shapes all have assigned ids and no connections (so that
`rebuild_connections` is the identity on the restored state). -/
theorem undo_record_mutate (st : CMState) (ns : List Shape) (nn : Nat)
    (hid : ∀ s ∈ st.shapes, s.shape_id ≠ 0)
    (hconn : ∀ s ∈ st.shapes, s.connections = []) :
    undo { record_state st with shapes := ns, next_shape_id := nn } =
      { shapes := st.shapes,
        next_shape_id := st.next_shape_id,
        selected_shape := none,
        clipboard := st.clipboard,
        undo_stack := (record_state st).undo_stack.dropLast,
        redo_stack := [current_snapshot
          ({ record_state st with shapes := ns, next_shape_id := nn } : CMState)] } := by
  have hlast : ({ record_state st with shapes := ns, next_shape_id := nn } : CMState).undo_stack.getLast? = some (current_snapshot st) :=
    record_state_getLast st
  have h1 : ∀ sd ∈ (current_snapshot st).shapes, sd.shape_id ≠ 0 := by
    intro sd hsd
    replace hsd : sd ∈ st.shapes.map Shape.to_dict := hsd
    obtain ⟨s, hs, rfl⟩ := List.mem_map.mp hsd
    exact hid s hs
  have h2 : ∀ sd ∈ (current_snapshot st).shapes, sd.connections = [] := by
    intro sd hsd
    replace hsd : sd ∈ st.shapes.map Shape.to_dict := hsd
    obtain ⟨s, hs, rfl⟩ := List.mem_map.mp hsd
    exact hconn s hs
  rw [undo_eq_restore _ _ hlast, restore_state_spec _ _ h1 h2]
  have hround : (current_snapshot st).shapes.map Shape.from_dict = st.shapes :=
    map_from_dict_to_dict st.shapes
  rw [hround]
  rfl

/-- `redo` applied to the state produced by `undo_record_mutate`: it
restores the post-mutation shape sequence and id counter. -/
theorem redo_undo_state (st : CMState) (ns : List Shape) (nn : Nat)
    (hns_id : ∀ s ∈ ns, s.shape_id ≠ 0)
    (hns_conn : ∀ s ∈ ns, s.connections = []) :
    (redo { shapes := st.shapes,
            next_shape_id := st.next_shape_id,
            selected_shape := none,
            clipboard := st.clipboard,
            undo_stack := (record_state st).undo_stack.dropLast,
            redo_stack := [current_snapshot
              ({ record_state st with shapes := ns, next_shape_id := nn } : CMState)] }).shapes
        = ns ∧
    (redo { shapes := st.shapes,
            next_shape_id := st.next_shape_id,
            selected_shape := none,
            clipboard := st.clipboard,
            undo_stack := (record_state st).undo_stack.dropLast,
            redo_stack := [current_snapshot
              ({ record_state st with shapes := ns, next_shape_id := nn } : CMState)] }).next_shape_id
        = nn := by
  have h1 : ∀ sd ∈ (current_snapshot ({ record_state st with shapes := ns, next_shape_id := nn } : CMState)).shapes, sd.shape_id ≠ 0 := by
    intro sd hsd
    replace hsd : sd ∈ ns.map Shape.to_dict := hsd
    obtain ⟨s, hs, rfl⟩ := List.mem_map.mp hsd
    exact hns_id s hs
  have h2 : ∀ sd ∈ (current_snapshot ({ record_state st with shapes := ns, next_shape_id := nn } : CMState)).shapes, sd.connections = [] := by
    intro sd hsd
    replace hsd : sd ∈ ns.map Shape.to_dict := hsd
    obtain ⟨s, hs, rfl⟩ := List.mem_map.mp hsd
    exact hns_conn s hs
  have hround : (current_snapshot ({ record_state st with shapes := ns, next_shape_id := nn } : CMState)).shapes.map Shape.from_dict = ns :=
    map_from_dict_to_dict ns
  have hlast2 : (({ shapes := st.shapes, next_shape_id := st.next_shape_id, selected_shape := none, clipboard := st.clipboard, undo_stack := (record_state st).undo_stack.dropLast, redo_stack := [current_snapshot ({ record_state st with shapes := ns, next_shape_id := nn } : CMState)] } : CMState)).redo_stack.getLast? = some (current_snapshot ({ record_state st with shapes := ns, next_shape_id := nn } : CMState)) := rfl
  rw [redo_eq_restore _ _ hlast2, restore_state_spec _ _ h1 h2, hround]
  exact ⟨rfl, rfl⟩

/-! Claim C5. -/

/-- Claim C5 (counterexample): `record(); mutate(); undo()` does not in
general restore the exact pre-mutation shape sequence, because
`restore_state` finishes with `rebuild_connections`, which re-snaps
connected endpoints. In `st_snap` the line's `"end"` endpoint is `(5,5)`,
within snap range of the rectangle corner `(0,0)`; after recording and
mutating only the id counter, `undo` brings the endpoint back at `(0,0)`,
not `(5,5)`. -/
theorem c5_counterexample :
    st_snap_mut = { record_state st_snap with next_shape_id := 99 } ∧
    (undo st_snap_mut).shapes ≠ st_snap.shapes ∧
    ((undo st_snap_mut).shapes.map fun s => (s.x2, s.y2)) = [(100, 100), (0, 0)] ∧
    (st_snap.shapes.map fun s => (s.x2, s.y2)) = [(100, 100), (5, 5)] := by
  refine ⟨rfl, ?_, ?_, ?_⟩
  · with_unfolding_all decide
  · with_unfolding_all decide
  · with_unfolding_all decide

/-- Claim C5 (amended): `undo`/`redo` on their empty stacks change
nothing, and `record_state(); mutate; undo()` restores the exact
pre-mutation shape sequence and id counter — and a subsequent `redo()`
restores the exact post-mutation state — provided the pre- and
post-mutation shapes carry no connections (and have assigned ids), since
`restore_state` re-runs `rebuild_connections`, which may re-snap any
connected endpoint that is not already at its snap point (see the
counterexample). -/
theorem c5_undo_redo_round_trip :
    (∀ st : CMState, st.undo_stack = [] → undo st = st) ∧
    (∀ st : CMState, st.redo_stack = [] → redo st = st) ∧
    (∀ (st : CMState) (ns : List Shape) (nn : Nat),
      (∀ s ∈ st.shapes, s.shape_id ≠ 0 ∧ s.connections = []) →
      (∀ s ∈ ns, s.shape_id ≠ 0 ∧ s.connections = []) →
      (undo { record_state st with shapes := ns, next_shape_id := nn }).shapes = st.shapes ∧
      (undo { record_state st with shapes := ns, next_shape_id := nn }).next_shape_id =
        st.next_shape_id ∧
      (redo (undo { record_state st with shapes := ns, next_shape_id := nn })).shapes = ns ∧
      (redo (undo { record_state st with shapes := ns, next_shape_id := nn })).next_shape_id =
        nn) := by
  refine ⟨?_, ?_, ?_⟩
  · intro st h
    unfold undo
    rw [h]
    rfl
  · intro st h
    unfold redo
    rw [h]
    rfl
  · intro st ns nn hst hns
    have hu := undo_record_mutate st ns nn (fun s hs => (hst s hs).1) (fun s hs => (hst s hs).2)
    have hr := redo_undo_state st ns nn (fun s hs => (hns s hs).1) (fun s hs => (hns s hs).2)
    rw [hu]
    exact ⟨rfl, rfl, hr.1, hr.2⟩

/-- Claim C5 (witness): the four statements at a concrete connection-free
drawing, mutating it to the empty shape list with counter 7. -/
theorem c5_witness :
    undo st_plain = st_plain ∧
    redo st_plain = st_plain ∧
    (undo { record_state st_plain with shapes := [], next_shape_id := 7 }).shapes =
      st_plain.shapes ∧
    (redo (undo { record_state st_plain with shapes := [], next_shape_id := 7 })).next_shape_id =
      7 :=
  ⟨c5_undo_redo_round_trip.1 st_plain rfl,
   c5_undo_redo_round_trip.2.1 st_plain rfl,
   (c5_undo_redo_round_trip.2.2 st_plain [] 7 (by decide) (by decide)).1,
   (c5_undo_redo_round_trip.2.2 st_plain [] 7 (by decide) (by decide)).2.2.2⟩
/-! Snap-engine characterization (helpers for claims C7 and C1). -/

/-- The nested scan of `get_snap_point` (shapes, then anchors) equals a
single fold over the flattened candidate list. -/
theorem foldl_candidates (x y : ℚ) (ex : Option Shape) :
    ∀ (l : List Shape) (acc : SnapAcc),
      l.foldl (fun acc shape => if snap_skip ex shape then acc
          else (snap_points shape).foldl (snap_step x y shape) acc) acc =
        (snap_candidates l ex).foldl (fun a c => snap_step x y c.1 a c.2) acc := by
  intro l
  induction l with
  | nil => intro acc; rfl
  | cons a t ih =>
    intro acc
    show t.foldl _ (if snap_skip ex a then acc
        else (snap_points a).foldl (snap_step x y a) acc) = _
    by_cases h : snap_skip ex a
    · rw [if_pos h]
      have hcand : snap_candidates (a :: t) ex = snap_candidates t ex := by
        unfold snap_candidates
        rw [List.filter_cons]
        simp [h]
      rw [hcand]
      exact ih acc
    · rw [if_neg h]
      have hcand : snap_candidates (a :: t) ex =
          (snap_points a).map (fun p => (a, p)) ++ snap_candidates t ex := by
        unfold snap_candidates
        rw [List.filter_cons]
        simp [h]
      rw [hcand, List.foldl_append, List.foldl_map]
      exact ih _

/-- Strict-minimum characterization of the candidate fold: either no
candidate beats the accumulator (which is then returned unchanged), or the
result records a candidate of globally minimal distance, strictly below the
accumulator's. -/
theorem snap_fold_spec (x y : ℚ) :
    ∀ (cands : List (Shape × (ℚ × ℚ))) (acc : SnapAcc),
      (cands.foldl (fun a c => snap_step x y c.1 a c.2) acc = acc ∧
        ∀ c ∈ cands, acc.min_dist2 ≤ dist2 x y c.2.1 c.2.2) ∨
      (∃ c ∈ cands,
        (cands.foldl (fun a c => snap_step x y c.1 a c.2) acc).snap_x = c.2.1 ∧
        (cands.foldl (fun a c => snap_step x y c.1 a c.2) acc).snap_y = c.2.2 ∧
        (cands.foldl (fun a c => snap_step x y c.1 a c.2) acc).snap_shape = some c.1 ∧
        (cands.foldl (fun a c => snap_step x y c.1 a c.2) acc).min_dist2 =
          dist2 x y c.2.1 c.2.2 ∧
        (cands.foldl (fun a c => snap_step x y c.1 a c.2) acc).min_dist2 < acc.min_dist2 ∧
        ∀ c' ∈ cands,
          (cands.foldl (fun a c => snap_step x y c.1 a c.2) acc).min_dist2 ≤
            dist2 x y c'.2.1 c'.2.2) := by
  intro cands
  induction cands with
  | nil => intro acc; exact Or.inl ⟨rfl, by simp⟩
  | cons c t ih =>
    intro acc
    simp only [List.foldl_cons]
    by_cases hlt : dist2 x y c.2.1 c.2.2 < acc.min_dist2
    · have hstep : snap_step x y c.1 acc c.2 =
          ⟨dist2 x y c.2.1 c.2.2, c.2.1, c.2.2, some c.1⟩ := by
        unfold snap_step
        rw [if_pos hlt]
      rw [hstep]
      rcases ih ⟨dist2 x y c.2.1 c.2.2, c.2.1, c.2.2, some c.1⟩ with ⟨heq, hall⟩ | hex
      · refine Or.inr ⟨c, List.mem_cons_self c t, ?_⟩
        rw [heq]
        refine ⟨rfl, rfl, rfl, rfl, hlt, ?_⟩
        intro c' hc'
        rcases List.mem_cons.mp hc' with h | h
        · subst h; exact le_refl _
        · exact hall c' h
      · obtain ⟨c2, hc2, hx, hy, hsh, hmin, hlt2, hall⟩ := hex
        refine Or.inr ⟨c2, List.mem_cons_of_mem c hc2, hx, hy, hsh, hmin, ?_, ?_⟩
        · exact lt_trans hlt2 hlt
        · intro c' hc'
          rcases List.mem_cons.mp hc' with h | h
          · subst h; exact le_of_lt hlt2
          · exact hall c' h
    · have hstep : snap_step x y c.1 acc c.2 = acc := by
        unfold snap_step
        rw [if_neg hlt]
      rw [hstep]
      rcases ih acc with ⟨heq, hall⟩ | hex
      · refine Or.inl ⟨heq, ?_⟩
        intro c' hc'
        rcases List.mem_cons.mp hc' with h | h
        · subst h; exact not_lt.mp hlt
        · exact hall c' h
      · obtain ⟨c2, hc2, hx, hy, hsh, hmin, hlt2, hall⟩ := hex
        refine Or.inr ⟨c2, List.mem_cons_of_mem c hc2, hx, hy, hsh, hmin, hlt2, ?_⟩
        intro c' hc'
        rcases List.mem_cons.mp hc' with h | h
        · subst h; exact le_of_lt (lt_of_lt_of_le hlt2 (not_lt.mp hlt))
        · exact hall c' h

/-- Specification of `get_snap_point`: it returns the original point and no
shape when every eligible anchor is at squared distance at least
`15² = 225`, and otherwise the first anchor attaining the globally minimal
distance (strictly below the threshold) together with its owning shape. -/
theorem get_snap_point_spec (shapes : List Shape) (x y : ℚ) (ex : Option Shape) :
    ((∀ c ∈ snap_candidates shapes ex,
        snap_distance * snap_distance ≤ dist2 x y c.2.1 c.2.2) →
      get_snap_point shapes x y ex = (x, y, none)) ∧
    ((∃ c ∈ snap_candidates shapes ex,
        dist2 x y c.2.1 c.2.2 < snap_distance * snap_distance) →
      ∃ c ∈ snap_candidates shapes ex,
        get_snap_point shapes x y ex = (c.2.1, c.2.2, some c.1) ∧
        dist2 x y c.2.1 c.2.2 < snap_distance * snap_distance ∧
        ∀ c' ∈ snap_candidates shapes ex,
          dist2 x y c.2.1 c.2.2 ≤ dist2 x y c'.2.1 c'.2.2) := by
  have hfold : get_snap_point shapes x y ex =
      (((snap_candidates shapes ex).foldl (fun a c => snap_step x y c.1 a c.2)
          ⟨snap_distance * snap_distance, x, y, none⟩).snap_x,
       ((snap_candidates shapes ex).foldl (fun a c => snap_step x y c.1 a c.2)
          ⟨snap_distance * snap_distance, x, y, none⟩).snap_y,
       ((snap_candidates shapes ex).foldl (fun a c => snap_step x y c.1 a c.2)
          ⟨snap_distance * snap_distance, x, y, none⟩).snap_shape) := by
    unfold get_snap_point
    rw [foldl_candidates x y ex shapes]
  rcases snap_fold_spec x y (snap_candidates shapes ex)
      ⟨snap_distance * snap_distance, x, y, none⟩ with ⟨heq, _⟩ | hex
  · constructor
    · intro _
      rw [hfold, heq]
    · intro hexists
      obtain ⟨c, hc, hdc⟩ := hexists
      rcases snap_fold_spec x y (snap_candidates shapes ex)
          ⟨snap_distance * snap_distance, x, y, none⟩ with ⟨_, hall⟩ | hex2
      · exact absurd hdc (not_lt.mpr (hall c hc))
      · obtain ⟨c2, hc2, hx, hy, hsh, hmin, hlt2, hall2⟩ := hex2
        refine ⟨c2, hc2, ?_, ?_, ?_⟩
        · rw [hfold, hx, hy, hsh]
        · rw [← hmin]; exact hlt2
        · intro c' hc'
          rw [← hmin]
          exact hall2 c' hc'
  · obtain ⟨c2, hc2, hx, hy, hsh, hmin, hlt2, hall2⟩ := hex
    constructor
    · intro hall
      exact absurd (hmin ▸ hlt2) (not_lt.mpr (hall c2 hc2))
    · intro _
      refine ⟨c2, hc2, ?_, ?_, ?_⟩
      · rw [hfold, hx, hy, hsh]
      · rw [← hmin]; exact hlt2
      · intro c' hc'
        rw [← hmin]
        exact hall2 c' hc'

/-! Claim C7. -/

/-- Claim C7: `get_snap_point` returns an anchor and its owning shape
exactly when some eligible anchor (of a non-excluded, non-line shape) is
strictly within the threshold (compared via squared distances,
`15² = 225`); the returned anchor attains the global minimum over all
eligible anchors. Otherwise the original query point and no shape are
returned. In particular a query 14.9 from a rectangle corner snaps to the
corner and one 15.1 away does not. -/
theorem c7_snap_threshold :
    (∀ (shapes : List Shape) (x y : ℚ) (ex : Option Shape),
      ((∀ c ∈ snap_candidates shapes ex,
          snap_distance * snap_distance ≤ dist2 x y c.2.1 c.2.2) →
        get_snap_point shapes x y ex = (x, y, none)) ∧
      ((∃ c ∈ snap_candidates shapes ex,
          dist2 x y c.2.1 c.2.2 < snap_distance * snap_distance) →
        ∃ c ∈ snap_candidates shapes ex,
          get_snap_point shapes x y ex = (c.2.1, c.2.2, some c.1) ∧
          dist2 x y c.2.1 c.2.2 < snap_distance * snap_distance ∧
          ∀ c' ∈ snap_candidates shapes ex,
            dist2 x y c.2.1 c.2.2 ≤ dist2 x y c'.2.1 c'.2.2)) ∧
    get_snap_point [rect_thr] (-149/10) 0 none = ((0 : ℚ), (0 : ℚ), some rect_thr) ∧
    get_snap_point [rect_thr] (-151/10) 0 none = ((-151/10 : ℚ), (0 : ℚ), none) := by
  refine ⟨fun shapes x y ex => get_snap_point_spec shapes x y ex, ?_, ?_⟩
  · with_unfolding_all decide
  · with_unfolding_all decide

/-- Claim C7 (witness): both branches at concrete inputs — a far query
point returns itself with no shape, and the 14.9-away query returns a
minimal anchor. -/
theorem c7_witness :
    get_snap_point [rect_thr] 200 200 none = ((200 : ℚ), (200 : ℚ), none) ∧
    (∃ c ∈ snap_candidates [rect_thr] none,
      get_snap_point [rect_thr] (-149/10) 0 none = (c.2.1, c.2.2, some c.1) ∧
      dist2 (-149/10) 0 c.2.1 c.2.2 < snap_distance * snap_distance ∧
      ∀ c' ∈ snap_candidates [rect_thr] none,
        dist2 (-149/10) 0 c.2.1 c.2.2 ≤ dist2 (-149/10) 0 c'.2.1 c'.2.2) :=
  ⟨(c7_snap_threshold.1 [rect_thr] 200 200 none).1 (by with_unfolding_all decide),
   (c7_snap_threshold.1 [rect_thr] (-149/10) 0 none).2 (by with_unfolding_all decide)⟩

/-! Claim C1. -/

/-- `get_connection_point` unfolded: the snap result at the line's current
endpoint coordinate, excluding only the line itself. -/
theorem get_connection_point_eq (shapes : List Shape) (t line : Shape) (ep : String) :
    get_connection_point shapes t line ep =
      ((get_snap_point shapes (if ep = "start" then line.x1 else line.x2)
          (if ep = "start" then line.y1 else line.y2) (some line)).1,
       (get_snap_point shapes (if ep = "start" then line.x1 else line.x2)
          (if ep = "start" then line.y1 else line.y2) (some line)).2.1) := rfl

/-- Claim C1 (counterexample): resolving `line_conn`'s connection to the
far-away target `rect_far` returns `(105, 100)` — an anchor of the
unrelated shape `rect_near` — whereas with `rect_near` absent it returns
the unsnapped endpoint `(100, 100)`; `(105, 100)` is not an anchor of the
target. Anchors of other shapes therefore do influence the returned
point. -/
theorem c1_counterexample :
    get_connection_point [rect_far, rect_near, line_conn] rect_far line_conn "end" =
      ((105 : ℚ), (100 : ℚ)) ∧
    get_connection_point [rect_far, line_conn] rect_far line_conn "end" =
      ((100 : ℚ), (100 : ℚ)) ∧
    ∀ p ∈ snap_points rect_far, p ≠ ((105 : ℚ), (100 : ℚ)) := by
  refine ⟨?_, ?_, ?_⟩
  · with_unfolding_all decide
  · with_unfolding_all decide
  · with_unfolding_all decide

/-- Claim C1 (amended): `get_connection_point` ignores its target-shape
argument entirely: it returns the `get_snap_point` result at the
connector's current endpoint coordinate, minimized over the anchors of ALL
non-line shapes in the drawing other than the connector itself — not
against the single target shape, whose identity cannot affect the result. -/
theorem c1_connection_point :
    (∀ (shapes : List Shape) (t1 t2 line : Shape) (ep : String),
      get_connection_point shapes t1 line ep = get_connection_point shapes t2 line ep) ∧
    (∀ (shapes : List Shape) (target line : Shape) (ep : String),
      ((∀ c ∈ snap_candidates shapes (some line),
          snap_distance * snap_distance ≤
            dist2 (if ep = "start" then line.x1 else line.x2)
              (if ep = "start" then line.y1 else line.y2) c.2.1 c.2.2) →
        get_connection_point shapes target line ep =
          (if ep = "start" then line.x1 else line.x2,
           if ep = "start" then line.y1 else line.y2)) ∧
      ((∃ c ∈ snap_candidates shapes (some line),
          dist2 (if ep = "start" then line.x1 else line.x2)
            (if ep = "start" then line.y1 else line.y2) c.2.1 c.2.2 <
              snap_distance * snap_distance) →
        ∃ c ∈ snap_candidates shapes (some line),
          get_connection_point shapes target line ep = (c.2.1, c.2.2) ∧
          ∀ c' ∈ snap_candidates shapes (some line),
            dist2 (if ep = "start" then line.x1 else line.x2)
              (if ep = "start" then line.y1 else line.y2) c.2.1 c.2.2 ≤
            dist2 (if ep = "start" then line.x1 else line.x2)
              (if ep = "start" then line.y1 else line.y2) c'.2.1 c'.2.2)) := by
  constructor
  · intro shapes t1 t2 line ep
    rfl
  · intro shapes target line ep
    have hspec := get_snap_point_spec shapes
      (if ep = "start" then line.x1 else line.x2)
      (if ep = "start" then line.y1 else line.y2) (some line)
    constructor
    · intro hall
      rw [get_connection_point_eq, hspec.1 hall]
    · intro hexists
      obtain ⟨c, hc, hgsp, _, hmin⟩ := hspec.2 hexists
      exact ⟨c, hc, by rw [get_connection_point_eq, hgsp], hmin⟩

/-- Claim C1 (witness): both branches on the counterexample drawing — with
the near rectangle present the minimizing anchor is returned, and at a
state whose anchors are all out of range the raw endpoint is returned. -/
theorem c1_witness :
    get_connection_point [rect_far, line_conn] rect_far line_conn "end" =
      (line_conn.x2, line_conn.y2) ∧
    (∃ c ∈ snap_candidates [rect_far, rect_near, line_conn] (some line_conn),
      get_connection_point [rect_far, rect_near, line_conn] rect_far line_conn "end" =
        (c.2.1, c.2.2) ∧
      ∀ c' ∈ snap_candidates [rect_far, rect_near, line_conn] (some line_conn),
        dist2 line_conn.x2 line_conn.y2 c.2.1 c.2.2 ≤
          dist2 line_conn.x2 line_conn.y2 c'.2.1 c'.2.2) := by
  constructor
  · exact (c1_connection_point.2 [rect_far, line_conn] rect_far line_conn "end").1
      (by with_unfolding_all decide)
  · exact (c1_connection_point.2 [rect_far, rect_near, line_conn] rect_far line_conn "end").2
      (by with_unfolding_all decide)

/-! Skeleton preservation (helpers for claim C10): `rebuild_connections`
only moves connector endpoints, so ids, counter, stacks, selection and
clipboard are untouched. -/

/-- Writing back the element already stored at an index is a no-op. -/
theorem set_get_self {α : Type} : ∀ (l : List α) (i : Nat) (x : α),
    l.get? i = some x → l.set i x = l := by
  intro l
  induction l with
  | nil => intro i x h; cases h
  | cons a t ih =>
    intro i x h
    cases i with
    | zero =>
      have : a = x := by
        have h' : some a = some x := h
        exact Option.some.inj h'
      rw [← this]
      rfl
    | succ n =>
      have h' : t.get? n = some x := h
      show a :: t.set n x = a :: t
      rw [ih n x h']

/-- Replacing a list element by one with the same image under `f` fixes the
mapped list. -/
theorem map_set_eq {α β : Type} (f : α → β) (l : List α) (i : Nat) (a b : α)
    (hget : l.get? i = some b) (hf : f a = f b) : (l.set i a).map f = l.map f := by
  rw [List.map_set, hf]
  apply set_get_self
  rw [List.get?_map, hget]
  rfl

/-- One connection update of the rebuild pass fixes the skeleton. -/
theorem rebuild_conn_step_skeleton (i : Nat) (st : CMState) (conn : Connection) :
    skeleton (rebuild_conn_step i st conn) = skeleton st := by
  unfold rebuild_conn_step
  cases hget : st.shapes.get? i with
  | none => rfl
  | some sh =>
    cases hfind : st.shapes.find? (fun s => s.shape_id = conn.target_id) with
    | none => rfl
    | some target =>
      dsimp only
      unfold skeleton
      have hmap := map_set_eq Shape.shape_id st.shapes i
        (if conn.endpoint = "start"
         then { sh with x1 := (get_connection_point st.shapes target sh conn.endpoint).1,
                        y1 := (get_connection_point st.shapes target sh conn.endpoint).2 }
         else { sh with x2 := (get_connection_point st.shapes target sh conn.endpoint).1,
                        y2 := (get_connection_point st.shapes target sh conn.endpoint).2 })
        sh hget (by split <;> rfl)
      rw [hmap]

/-- The whole connection list replay of one shape fixes the skeleton. -/
theorem foldl_conn_skeleton (i : Nat) (conns : List Connection) : ∀ st : CMState,
    skeleton (conns.foldl (rebuild_conn_step i) st) = skeleton st := by
  induction conns with
  | nil => intro st; rfl
  | cons c rest ih =>
    intro st
    rw [List.foldl_cons, ih (rebuild_conn_step i st c), rebuild_conn_step_skeleton]

/-- Processing one shape of the rebuild pass fixes the skeleton. -/
theorem rebuild_shape_step_skeleton (st : CMState) (i : Nat) :
    skeleton (rebuild_shape_step st i) = skeleton st := by
  unfold rebuild_shape_step
  cases hget : st.shapes.get? i with
  | none => rfl
  | some shape =>
    dsimp only
    split
    · exact foldl_conn_skeleton i shape.connections st
    · rfl

/-- `rebuild_connections` fixes the skeleton. -/
theorem rebuild_connections_skeleton (st : CMState) :
    skeleton (rebuild_connections st) = skeleton st := by
  unfold rebuild_connections
  generalize List.range st.shapes.length = l
  induction l generalizing st with
  | nil => rfl
  | cons i rest ih =>
    rw [List.foldl_cons, ih (rebuild_shape_step st i), rebuild_shape_step_skeleton]

/-- `restore_state` on a snapshot of shapes with assigned ids installs
exactly the snapshot's id sequence and counter, leaving both stacks and the
clipboard untouched. -/
theorem restore_state_ids (st : CMState) (snap : Snapshot)
    (hid : ∀ sd ∈ snap.shapes, sd.shape_id ≠ 0) :
    (restore_state st snap).shapes.map Shape.shape_id =
      snap.shapes.map ShapeData.shape_id ∧
    (restore_state st snap).next_shape_id = snap.next_id ∧
    (restore_state st snap).undo_stack = st.undo_stack ∧
    (restore_state st snap).redo_stack = st.redo_stack := by
  have hfold : snap.shapes.foldl (fun acc sd => add_shape acc (Shape.from_dict sd) false)
        { st with shapes := [], next_shape_id := snap.next_id, selected_shape := none } =
      { st with shapes := snap.shapes.map Shape.from_dict,
                next_shape_id := snap.next_id, selected_shape := none } := by
    rw [foldl_add_shape snap.shapes _ hid]
    rfl
  have hre : restore_state st snap = rebuild_connections
      { st with shapes := snap.shapes.map Shape.from_dict,
                next_shape_id := snap.next_id, selected_shape := none } := by
    calc restore_state st snap
        = rebuild_connections
            (snap.shapes.foldl (fun acc sd => add_shape acc (Shape.from_dict sd) false)
              { st with shapes := [], next_shape_id := snap.next_id,
                        selected_shape := none }) := rfl
      _ = _ := by rw [hfold]
  have hsk := rebuild_connections_skeleton
    { st with shapes := snap.shapes.map Shape.from_dict,
              next_shape_id := snap.next_id, selected_shape := none }
  simp only [skeleton, Prod.mk.injEq] at hsk
  obtain ⟨h1, h2, h3, h4, _, _⟩ := hsk
  rw [hre]
  refine ⟨?_, h2, h3, h4⟩
  rw [h1, List.map_map]
  rfl

/-! Invariant preservation for every editing operation (claim C10). -/

/-- Serializing a well-formed drawing gives a well-formed snapshot. -/
theorem snapshot_ok_current (st : CMState) (h : ids_ok st.shapes st.next_shape_id) :
    snapshot_ok (current_snapshot st) := by
  obtain ⟨h1, h2, h3⟩ := h
  refine ⟨h1, ?_, ?_⟩
  · show ((st.shapes.map Shape.to_dict).map ShapeData.shape_id).Nodup
    rw [List.map_map]
    exact h2
  · intro sd hsd
    replace hsd : sd ∈ st.shapes.map Shape.to_dict := hsd
    obtain ⟨s, hs, rfl⟩ := List.mem_map.mp hsd
    exact h3 s hs

/-- `record_state` preserves the invariant. -/
theorem state_ok_record (st : CMState) (h : state_ok st) : state_ok (record_state st) := by
  obtain ⟨hids, hundo, _⟩ := h
  refine ⟨hids, ?_, ?_⟩
  · intro sn hsn
    replace hsn : sn ∈ (record_state st).undo_stack := hsn
    rw [record_state_undo_stack] at hsn
    have hsn2 : sn ∈ st.undo_stack ++ [current_snapshot st] := by
      revert hsn
      split
      · intro hsn
        exact List.drop_subset _ _ hsn
      · intro hsn
        exact hsn
    rcases List.mem_append.mp hsn2 with h | h
    · exact hundo sn h
    · have : sn = current_snapshot st := List.mem_singleton.mp h
      rw [this]
      exact snapshot_ok_current st hids
  · intro sn hsn
    replace hsn : sn ∈ ([] : List Snapshot) := hsn
    cases hsn

/-- Inserting a freshly constructed (id 0) shape preserves the invariant:
the shape receives the current counter value as id and the counter is
bumped. -/
theorem state_ok_add (st : CMState) (sh : Shape) (h : state_ok st) :
    state_ok (add_shape st { sh with shape_id := 0 } true) := by
  obtain ⟨⟨h1, h2, h3⟩, hundo, hredo⟩ := h
  have hadd : add_shape st { sh with shape_id := 0 } true =
      record_state { st with
        shapes := st.shapes ++ [{ sh with shape_id := st.next_shape_id }],
        next_shape_id := st.next_shape_id + 1 } := rfl
  rw [hadd]
  apply state_ok_record
  constructor
  case right => exact ⟨hundo, hredo⟩
  show ids_ok (st.shapes ++ [{ sh with shape_id := st.next_shape_id }])
    (st.next_shape_id + 1)
  refine ⟨by omega, ?_, ?_⟩
  · show (List.map Shape.shape_id
      (st.shapes ++ [{ sh with shape_id := st.next_shape_id }])).Nodup
    rw [List.map_append]
    rw [List.nodup_append]
    refine ⟨h2, List.nodup_singleton _, ?_⟩
    intro a ha hb
    have ha' : a ∈ st.shapes.map Shape.shape_id := ha
    obtain ⟨s, hs, rfl⟩ := List.mem_map.mp ha'
    have hlt := (h3 s hs).2
    have hb' : s.shape_id = st.next_shape_id := by
      have : s.shape_id ∈ List.map Shape.shape_id
          [{ sh with shape_id := st.next_shape_id }] := hb
      simpa using this
    omega
  · intro s hs
    rcases List.mem_append.mp hs with hmem | hmem
    · have := h3 s hmem
      omega
    · have : s = { sh with shape_id := st.next_shape_id } := List.mem_singleton.mp hmem
      rw [this]
      show 0 < st.next_shape_id ∧ st.next_shape_id < st.next_shape_id + 1
      omega

/-- `paste_shape` preserves the invariant (it inserts a copy with the id
forced back to 0). -/
theorem state_ok_paste (st : CMState) (h : state_ok st) : state_ok (paste_shape st) := by
  cases hclip : st.clipboard with
  | none =>
    unfold paste_shape
    rw [hclip]
    exact h
  | some clip =>
    unfold paste_shape
    rw [hclip]
    exact state_ok_add st clip.copy h

/-- `delete_shape` preserves the invariant: the remaining id sequence is a
sublist of the original. -/
theorem state_ok_delete (st : CMState) (sh : Shape) (h : state_ok st) :
    state_ok (delete_shape st sh) := by
  by_cases hm : sh ∈ st.shapes
  · have hrec := state_ok_record st h
    obtain ⟨⟨h1, h2, h3⟩, _, _⟩ := h
    obtain ⟨_, hundo2, hredo2⟩ := hrec
    have hdel : delete_shape st sh = clear_selection
        { record_state st with
          shapes := ((record_state st).shapes.map (detach_connections sh.shape_id)).eraseIdx
            (st.shapes.findIdx (fun s => s = sh)) } := by
      unfold delete_shape
      rw [if_pos hm]
    rw [hdel]
    have hsub : (((record_state st).shapes.map (detach_connections sh.shape_id)).eraseIdx
          (st.shapes.findIdx (fun s => s = sh))).Sublist
        ((record_state st).shapes.map (detach_connections sh.shape_id)) :=
      List.eraseIdx_sublist _ _
    have hdetach_ids : ((record_state st).shapes.map
        (detach_connections sh.shape_id)).map Shape.shape_id =
          st.shapes.map Shape.shape_id := by
      rw [List.map_map]
      rfl
    refine ⟨⟨h1, ?_, ?_⟩, hundo2, hredo2⟩
    · have := (hsub.map Shape.shape_id).nodup (by rw [hdetach_ids]; exact h2)
      exact this
    · intro s hs
      have hs2 : s ∈ (record_state st).shapes.map (detach_connections sh.shape_id) :=
        hsub.subset hs
      have hs3 : s ∈ st.shapes.map (detach_connections sh.shape_id) := hs2
      obtain ⟨s0, hs0, rfl⟩ := List.mem_map.mp hs3
      exact h3 s0 hs0
  · unfold delete_shape
    rw [if_neg hm]
    exact h

/-- `restore_state` to a well-formed snapshot yields a well-formed state
when the incoming stacks are well formed. -/
theorem state_ok_restore (st : CMState) (snap : Snapshot)
    (hu : ∀ sn ∈ st.undo_stack, snapshot_ok sn)
    (hr : ∀ sn ∈ st.redo_stack, snapshot_ok sn)
    (hsnap : snapshot_ok snap) : state_ok (restore_state st snap) := by
  obtain ⟨hn1, hn2, hn3⟩ := hsnap
  have hid : ∀ sd ∈ snap.shapes, sd.shape_id ≠ 0 := by
    intro sd hsd
    have := (hn3 sd hsd).1
    omega
  obtain ⟨hids, hnext, hustack, hrstack⟩ := restore_state_ids st snap hid
  refine ⟨⟨?_, ?_, ?_⟩, ?_, ?_⟩
  · rw [hnext]; exact hn1
  · rw [hids]; exact hn2
  · intro s hs
    have hmem : s.shape_id ∈ (restore_state st snap).shapes.map Shape.shape_id :=
      List.mem_map_of_mem Shape.shape_id hs
    rw [hids] at hmem
    obtain ⟨sd, hsd, heq⟩ := List.mem_map.mp hmem
    rw [hnext, ← heq]
    exact hn3 sd hsd
  · intro sn hsn
    rw [hustack] at hsn
    exact hu sn hsn
  · intro sn hsn
    rw [hrstack] at hsn
    exact hr sn hsn

/-- `undo` preserves the invariant. -/
theorem state_ok_undo (st : CMState) (h : state_ok st) : state_ok (undo st) := by
  obtain ⟨hids, hundo, hredo⟩ := h
  cases hlast : st.undo_stack.getLast? with
  | none =>
    unfold undo
    rw [hlast]
    exact ⟨hids, hundo, hredo⟩
  | some snap =>
    rw [undo_eq_restore st snap hlast]
    apply state_ok_restore
    · intro sn hsn
      replace hsn : sn ∈ st.undo_stack.dropLast := hsn
      exact hundo sn ((List.dropLast_sublist _).subset hsn)
    · intro sn hsn
      replace hsn : sn ∈ st.redo_stack ++ [current_snapshot st] := hsn
      rcases List.mem_append.mp hsn with hmem | hmem
      · exact hredo sn hmem
      · rw [List.mem_singleton.mp hmem]
        exact snapshot_ok_current st hids
    · exact hundo snap (List.mem_of_mem_getLast? hlast)

/-- `redo` preserves the invariant. -/
theorem state_ok_redo (st : CMState) (h : state_ok st) : state_ok (redo st) := by
  obtain ⟨hids, hundo, hredo⟩ := h
  cases hlast : st.redo_stack.getLast? with
  | none =>
    unfold redo
    rw [hlast]
    exact ⟨hids, hundo, hredo⟩
  | some snap =>
    rw [redo_eq_restore st snap hlast]
    apply state_ok_restore
    · intro sn hsn
      replace hsn : sn ∈ st.undo_stack ++ [current_snapshot st] := hsn
      rcases List.mem_append.mp hsn with hmem | hmem
      · exact hundo sn hmem
      · rw [List.mem_singleton.mp hmem]
        exact snapshot_ok_current st hids
    · intro sn hsn
      replace hsn : sn ∈ st.redo_stack.dropLast := hsn
      exact hredo sn ((List.dropLast_sublist _).subset hsn)
    · exact hredo snap (List.mem_of_mem_getLast? hlast)

/-- Every editing operation preserves the invariant. -/
theorem state_ok_apply (st : CMState) (op : EditOp) (h : state_ok st) :
    state_ok (apply_op st op) := by
  cases op with
  | insert sh => exact state_ok_add st sh h
  | paste => exact state_ok_paste st h
  | delete sh => exact state_ok_delete st sh h
  | undo => exact state_ok_undo st h
  | redo => exact state_ok_redo st h

/-- The empty drawing satisfies the invariant, whatever the clipboard
holds. -/
theorem state_ok_init (clip : Option Shape) : state_ok { clipboard := clip } := by
  refine ⟨⟨le_refl 1, List.nodup_nil, ?_⟩, ?_, ?_⟩
  · intro s hs
    cases hs
  · intro sn hsn
    cases hsn
  · intro sn hsn
    cases hsn

/-! Claim C10. -/

/-- Claim C10: in every state reachable from the empty drawing by the
editing operations insert, paste, delete, undo and redo (with arbitrary
clipboard seed), the live shapes carry pairwise-distinct positive ids, all
strictly below `next_shape_id`. -/
theorem c10_id_invariant (clip : Option Shape) (ops : List EditOp) :
    ((run_ops clip ops).shapes.map Shape.shape_id).Nodup ∧
    ∀ s ∈ (run_ops clip ops).shapes,
      0 < s.shape_id ∧ s.shape_id < (run_ops clip ops).next_shape_id := by
  have haux : ∀ (l : List EditOp) (st : CMState), state_ok st →
      state_ok (l.foldl apply_op st) := by
    intro l
    induction l with
    | nil => exact fun st h => h
    | cons op rest ih =>
      intro st h
      rw [List.foldl_cons]
      exact ih _ (state_ok_apply st op h)
  have h : state_ok (run_ops clip ops) := haux ops _ (state_ok_init clip)
  exact ⟨h.1.2.1, h.1.2.2⟩

end AbDraw
